import Mathlib

/-!
Verification of the astronomical computation core of the horoscope
repository (src/astro.ts) against its natural-language specification.

The module is embedded shallowly over the real numbers: the JavaScript
number operations of astro.ts are modelled by their exact real-valued
counterparts (`Math.atan2` becomes the complex argument, `%` becomes the
truncated-quotient remainder, `Math.floor` becomes the integer floor),
and the external ephemeris engine together with the JavaScript `Date`
type is abstracted into an explicit environment record, mirroring the
specification's "injected ephemeris provider".
-/

namespace Horoscope

/-! ## Angle utilities (astro.ts, deg2rad / rad2deg / normalizeDegrees) -/

noncomputable def deg2rad (d : ℝ) : ℝ := d * Real.pi / 180

noncomputable def rad2deg (r : ℝ) : ℝ := r * 180 / Real.pi

/-- Truncation toward zero, as performed by the JavaScript `%` operator
on the quotient -/
noncomputable def rtrunc (q : ℝ) : ℤ := if 0 ≤ q then ⌊q⌋ else ⌈q⌉

/-- The JavaScript remainder operator `x % y`: the result carries the
sign of the dividend -/
noncomputable def jsMod (x y : ℝ) : ℝ := x - y * rtrunc (x / y)

/-- astro.ts `normalizeDegrees`: `m = value % 360; return m < 0 ? m + 360 : m` -/
noncomputable def normalizeDegrees (value : ℝ) : ℝ :=
  let m := jsMod value 360
  if m < 0 then m + 360 else m

/-- JavaScript `Math.atan2 y x`, modelled as the argument of the complex
number with real part x and imaginary part y -/
noncomputable def atan2 (y x : ℝ) : ℝ := Complex.arg ⟨x, y⟩

/-! ### Range and idempotence of normalizeDegrees -/

lemma jsMod_360_nonneg_case {x : ℝ} (hx : 0 ≤ x) :
    0 ≤ jsMod x 360 ∧ jsMod x 360 < 360 := by
  have hq : (0 : ℝ) ≤ x / 360 := by positivity
  have hx360 : 360 * (x / 360) = x := by ring_nf
  unfold jsMod rtrunc
  rw [if_pos hq]
  constructor
  · have h1 : (⌊x / 360⌋ : ℝ) ≤ x / 360 := Int.floor_le _
    nlinarith
  · have h2 : x / 360 < ⌊x / 360⌋ + 1 := Int.lt_floor_add_one _
    nlinarith

lemma jsMod_360_neg_case {x : ℝ} (hx : x < 0) :
    -360 < jsMod x 360 ∧ jsMod x 360 ≤ 0 := by
  have hq : x / 360 < 0 := by
    apply div_neg_of_neg_of_pos hx
    norm_num
  have hq2 : ¬ (0 : ℝ) ≤ x / 360 := not_le.mpr hq
  have hx360 : 360 * (x / 360) = x := by ring_nf
  unfold jsMod rtrunc
  rw [if_neg hq2]
  constructor
  · have h2 : (⌈x / 360⌉ : ℝ) < x / 360 + 1 := Int.ceil_lt_add_one _
    nlinarith
  · have h1 : x / 360 ≤ (⌈x / 360⌉ : ℝ) := Int.le_ceil _
    nlinarith

lemma normalizeDegrees_mem (x : ℝ) :
    0 ≤ normalizeDegrees x ∧ normalizeDegrees x < 360 := by
  unfold normalizeDegrees
  rcases le_or_lt 0 x with hx | hx
  · obtain ⟨h0, h1⟩ := jsMod_360_nonneg_case hx
    rw [if_neg (not_lt.mpr h0)]
    exact ⟨h0, h1⟩
  · obtain ⟨h0, h1⟩ := jsMod_360_neg_case hx
    by_cases hm : jsMod x 360 < 0
    · rw [if_pos hm]
      constructor <;> linarith
    · rw [if_neg hm]
      constructor <;> linarith

lemma normalizeDegrees_eq_self {x : ℝ} (h0 : 0 ≤ x) (h1 : x < 360) :
    normalizeDegrees x = x := by
  have hq : (0 : ℝ) ≤ x / 360 := by positivity
  have hfl : ⌊x / 360⌋ = 0 := by
    rw [Int.floor_eq_zero_iff]
    constructor
    · exact hq
    · rw [div_lt_one (by norm_num : (0:ℝ) < 360)]
      linarith
  unfold normalizeDegrees jsMod rtrunc
  rw [if_pos hq, hfl]
  simp only [Int.cast_zero, mul_zero, sub_zero]
  rw [if_neg (not_lt.mpr h0)]

lemma normalizeDegrees_neg_eq {x : ℝ} (h0 : -360 < x) (h1 : x < 0) :
    normalizeDegrees x = x + 360 := by
  have hq : x / 360 < 0 := by
    apply div_neg_of_neg_of_pos h1
    norm_num
  have hcl : ⌈x / 360⌉ = 0 := by
    rw [Int.ceil_eq_zero_iff]
    constructor
    · rw [lt_div_iff₀ (by norm_num : (0:ℝ) < 360)]
      linarith
    · exact le_of_lt hq
  unfold normalizeDegrees jsMod rtrunc
  rw [if_neg (not_le.mpr hq), hcl]
  simp only [Int.cast_zero, mul_zero, sub_zero]
  rw [if_pos h1]

lemma normalizeDegrees_idem (x : ℝ) :
    normalizeDegrees (normalizeDegrees x) = normalizeDegrees x := by
  obtain ⟨h0, h1⟩ := normalizeDegrees_mem x
  exact normalizeDegrees_eq_self h0 h1

/-- Claim C7: for every real input, `normalizeDegrees` lands in [0, 360),
is idempotent, and is implemented as `m = x % 360` followed by adding 360
exactly when the remainder is negative. -/
theorem normalizeDegrees_range_idem (x : ℝ) :
    (0 ≤ normalizeDegrees x ∧ normalizeDegrees x < 360) ∧
    normalizeDegrees (normalizeDegrees x) = normalizeDegrees x ∧
    normalizeDegrees x = (if jsMod x 360 < 0 then jsMod x 360 + 360 else jsMod x 360) := by
  refine ⟨normalizeDegrees_mem x, normalizeDegrees_idem x, rfl⟩

/-! ## Sign classifier (astro.ts SIGN_LABELS and the floor-division slice) -/

def SIGN_LABELS : List String :=
  ["Aries", "Taurus", "Gemini", "Cancer", "Leo", "Virgo",
   "Libra", "Scorpio", "Sagittarius", "Capricorn", "Aquarius", "Pisces"]

/-- astro.ts `Math.floor(elon / 30) % 12`: the JavaScript `%` on the
integral value produced by `Math.floor` is the truncated remainder -/
noncomputable def signIndex (longitude : ℝ) : ℤ := Int.tmod ⌊longitude / 30⌋ 12

/-- astro.ts `SIGN_LABELS[signIndex]` -/
noncomputable def signLabel (longitude : ℝ) : String :=
  SIGN_LABELS.getD (signIndex longitude).toNat ""

lemma floor_div_thirty_bounds {L : ℝ} (h0 : 0 ≤ L) (h1 : L < 360) :
    0 ≤ ⌊L / 30⌋ ∧ ⌊L / 30⌋ < 12 := by
  constructor
  · exact Int.floor_nonneg.mpr (by positivity)
  · rw [Int.floor_lt]
    rw [div_lt_iff (by norm_num : (0:ℝ) < 30)]
    push_cast
    linarith

lemma tmod_twelve_eq_self {a : ℤ} (h0 : 0 ≤ a) (h1 : a < 12) :
    Int.tmod a 12 = a := by
  interval_cases a <;> decide

lemma signIndex_bounds {L : ℝ} (h0 : 0 ≤ L) (h1 : L < 360) :
    0 ≤ signIndex L ∧ signIndex L ≤ 11 ∧ signIndex L = ⌊L / 30⌋ := by
  obtain ⟨ha, hb⟩ := floor_div_thirty_bounds h0 h1
  have ht : Int.tmod ⌊L / 30⌋ 12 = ⌊L / 30⌋ := tmod_twelve_eq_self ha hb
  unfold signIndex
  rw [ht]
  exact ⟨ha, by omega, rfl⟩

lemma signIndex_thirty : signIndex 30 = 1 := by
  unfold signIndex
  have h : (30 : ℝ) / 30 = 1 := by norm_num
  rw [h, Int.floor_one]
  decide

/-- Claim C3: for every longitude in [0, 360) the slice index
`floor(L / 30) mod 12` lies in [0, 11] and is a valid index into the
fixed 12-name table starting at Aries; longitude exactly 30 classifies
as Taurus (slice 1), not Aries. -/
theorem signIndex_valid_and_boundary (L : ℝ) (h0 : 0 ≤ L) (h1 : L < 360) :
    (0 ≤ signIndex L ∧ signIndex L ≤ 11 ∧
      (signIndex L).toNat < SIGN_LABELS.length) ∧
    (L = 30 → signIndex L = 1 ∧ signLabel L = "Taurus") := by
  obtain ⟨ha, hb, _⟩ := signIndex_bounds h0 h1
  refine ⟨⟨ha, hb, ?_⟩, ?_⟩
  · have : SIGN_LABELS.length = 12 := rfl
    omega
  · rintro rfl
    refine ⟨signIndex_thirty, ?_⟩
    unfold signLabel
    rw [signIndex_thirty]
    rfl

/-- Claim C3 witness at the boundary longitude 30. -/
theorem signIndex_valid_and_boundary_witness :
    (0 ≤ signIndex 30 ∧ signIndex 30 ≤ 11 ∧
      (signIndex 30).toNat < SIGN_LABELS.length) ∧
    ((30 : ℝ) = 30 → signIndex 30 = 1 ∧ signLabel 30 = "Taurus") :=
  signIndex_valid_and_boundary 30 (by norm_num) (by norm_num)

/-! ## Hemisphere correction (astro.ts line 202) -/

/-- astro.ts `lambdaAsc = lambdaAsc < 180 ? lambdaAsc + 180 : lambdaAsc - 180` -/
noncomputable def hemisphereCorrect (lambdaAsc : ℝ) : ℝ :=
  if lambdaAsc < 180 then lambdaAsc + 180 else lambdaAsc - 180

lemma hemisphereCorrect_mem {l : ℝ} (h0 : 0 ≤ l) (h1 : l < 360) :
    0 ≤ hemisphereCorrect l ∧ hemisphereCorrect l < 360 := by
  unfold hemisphereCorrect
  split_ifs with h
  · constructor <;> linarith
  · constructor <;> linarith

/-- Claim C2: for every normalized raw ascendant longitude in [0, 360),
the hemisphere-corrected value differs from it by exactly 180 degrees
modulo 360 (the raw difference is plus or minus 180, and normalizes to
180); values below 180 take the add branch, all others the subtract
branch, so the exact boundary 180 maps to 0. -/
theorem hemisphereCorrect_shift (l : ℝ) (h0 : 0 ≤ l) (h1 : l < 360) :
    (hemisphereCorrect l - l = 180 ∨ hemisphereCorrect l - l = -180) ∧
    normalizeDegrees (hemisphereCorrect l - l) = 180 ∧
    (l < 180 → hemisphereCorrect l = l + 180) ∧
    (180 ≤ l → hemisphereCorrect l = l - 180) ∧
    (l = 180 → hemisphereCorrect l = 0) := by
  unfold hemisphereCorrect
  split_ifs with h
  · refine ⟨Or.inl (by ring), ?_, fun _ => rfl, fun hc => absurd hc (not_le.mpr h), ?_⟩
    · have he : l + 180 - l = 180 := by ring
      rw [he]
      exact normalizeDegrees_eq_self (by norm_num) (by norm_num)
    · rintro rfl
      norm_num at h
  · refine ⟨Or.inr (by ring), ?_, fun hc => absurd hc (not_lt.mpr (not_lt.mp h)), fun _ => rfl, ?_⟩
    · have he : l - 180 - l = -180 := by ring
      rw [he]
      rw [normalizeDegrees_neg_eq (by norm_num) (by norm_num)]
      norm_num
    · rintro rfl
      norm_num

/-- Claim C2 witness at the boundary value 180, which maps to 0. -/
theorem hemisphereCorrect_shift_witness :
    (hemisphereCorrect 180 - 180 = 180 ∨ hemisphereCorrect 180 - 180 = -180) ∧
    normalizeDegrees (hemisphereCorrect 180 - 180) = 180 ∧
    ((180 : ℝ) < 180 → hemisphereCorrect 180 = 180 + 180) ∧
    ((180 : ℝ) ≤ 180 → hemisphereCorrect 180 = 180 - 180) ∧
    ((180 : ℝ) = 180 → hemisphereCorrect 180 = 0) :=
  hemisphereCorrect_shift 180 (by norm_num) (by norm_num)

/-! ## Ecliptic to equatorial projection (astro.ts eclipticLongitudeToEquatorialJ2000) -/

/-- The fixed mean obliquity constant hardcoded in astro.ts -/
def obliquityJ2000 : ℝ := 23.4392911

/-- astro.ts `eclipticLongitudeToEquatorialJ2000`, for ecliptic latitude
beta = 0: right ascension in hours after normalizing the argument to
[0, 2 pi), declination in degrees -/
noncomputable def eclipticLongitudeToEquatorialJ2000
    (lambdaDeg obliquityDeg : ℝ) : ℝ × ℝ :=
  let lam := deg2rad lambdaDeg
  let eps := deg2rad obliquityDeg
  let sinLam := Real.sin lam
  let cosLam := Real.cos lam
  let sinEps := Real.sin eps
  let cosEps := Real.cos eps
  let y := sinLam * cosEps
  let x := cosLam
  let alpha0 := atan2 y x
  let alpha := if alpha0 < 0 then alpha0 + 2 * Real.pi else alpha0
  let delta := Real.arcsin (sinEps * sinLam)
  (alpha * 12 / Real.pi, rad2deg delta)

/-- Modelled from the spec: the source contains only the forward
conversion `eclipticLongitudeToEquatorialJ2000`; the reverse direction
demanded by the specification's round-trip property ("converting an
ecliptic longitude (beta = 0) to equatorial coordinates and back") is
the standard inverse rotation of the equatorial unit vector by the
obliquity about the vernal-equinox axis, read back as an ecliptic
longitude in degrees normalized to [0, 360). -/
noncomputable def equatorialJ2000ToEclipticLongitude
    (raHours decDeg obliquityDeg : ℝ) : ℝ :=
  let alpha := deg2rad (raHours * 15)
  let delta := deg2rad decDeg
  let eps := deg2rad obliquityDeg
  let xe := Real.cos delta * Real.cos alpha
  let ye := Real.cos delta * Real.sin alpha * Real.cos eps
    + Real.sin delta * Real.sin eps
  normalizeDegrees (rad2deg (atan2 ye xe))

lemma rad2deg_deg2rad (x : ℝ) : rad2deg (deg2rad x) = x := by
  unfold rad2deg deg2rad
  field_simp

lemma deg2rad_rad2deg (x : ℝ) : deg2rad (rad2deg x) = x := by
  unfold rad2deg deg2rad
  field_simp

lemma obliquity_eps_pos : 0 < deg2rad obliquityJ2000 := by
  unfold deg2rad obliquityJ2000
  positivity

lemma obliquity_eps_lt : deg2rad obliquityJ2000 < Real.pi / 2 := by
  unfold deg2rad obliquityJ2000
  nlinarith [Real.pi_pos]

lemma obliquity_cos_pos : 0 < Real.cos (deg2rad obliquityJ2000) := by
  apply Real.cos_pos_of_mem_Ioo
  constructor
  · have := Real.pi_pos
    have := obliquity_eps_pos
    linarith
  · exact obliquity_eps_lt

/-- Unfolding of the forward conversion to an explicit pair. -/
lemma ecl2equ_unfold (lambdaDeg obliquityDeg : ℝ) :
    eclipticLongitudeToEquatorialJ2000 lambdaDeg obliquityDeg =
    ((if atan2 (Real.sin (deg2rad lambdaDeg) * Real.cos (deg2rad obliquityDeg))
          (Real.cos (deg2rad lambdaDeg)) < 0 then
        atan2 (Real.sin (deg2rad lambdaDeg) * Real.cos (deg2rad obliquityDeg))
          (Real.cos (deg2rad lambdaDeg)) + 2 * Real.pi
      else
        atan2 (Real.sin (deg2rad lambdaDeg) * Real.cos (deg2rad obliquityDeg))
          (Real.cos (deg2rad lambdaDeg))) * 12 / Real.pi,
     rad2deg (Real.arcsin
        (Real.sin (deg2rad obliquityDeg) * Real.sin (deg2rad lambdaDeg)))) := rfl

/-- First component (right ascension in hours) of the forward conversion. -/
lemma ecl2equ_fst (lambdaDeg obliquityDeg : ℝ) :
    (eclipticLongitudeToEquatorialJ2000 lambdaDeg obliquityDeg).1 =
    (if atan2 (Real.sin (deg2rad lambdaDeg) * Real.cos (deg2rad obliquityDeg))
          (Real.cos (deg2rad lambdaDeg)) < 0 then
        atan2 (Real.sin (deg2rad lambdaDeg) * Real.cos (deg2rad obliquityDeg))
          (Real.cos (deg2rad lambdaDeg)) + 2 * Real.pi
      else
        atan2 (Real.sin (deg2rad lambdaDeg) * Real.cos (deg2rad obliquityDeg))
          (Real.cos (deg2rad lambdaDeg))) * 12 / Real.pi := rfl

/-- Second component (declination in degrees) of the forward conversion. -/
lemma ecl2equ_snd (lambdaDeg obliquityDeg : ℝ) :
    (eclipticLongitudeToEquatorialJ2000 lambdaDeg obliquityDeg).2 =
    rad2deg (Real.arcsin
      (Real.sin (deg2rad obliquityDeg) * Real.sin (deg2rad lambdaDeg))) := rfl

/-- Unfolding of the reverse conversion to an explicit expression. -/
lemma equ2ecl_unfold (raHours decDeg obliquityDeg : ℝ) :
    equatorialJ2000ToEclipticLongitude raHours decDeg obliquityDeg =
    normalizeDegrees (rad2deg (atan2
      (Real.cos (deg2rad decDeg) * Real.sin (deg2rad (raHours * 15))
          * Real.cos (deg2rad obliquityDeg)
        + Real.sin (deg2rad decDeg) * Real.sin (deg2rad obliquityDeg))
      (Real.cos (deg2rad decDeg) * Real.cos (deg2rad (raHours * 15))))) := rfl

lemma deg2rad_hours (a : ℝ) : deg2rad (a * 12 / Real.pi * 15) = a := by
  unfold deg2rad
  field_simp
  ring

/-- The inverse rotation applied to the forward conversion's equatorial
angles recovers exactly the sine and cosine of the original ecliptic
longitude. -/
lemma inverse_projection_eq (lam eps : ℝ) (hce : 0 < Real.cos eps) :
    Real.cos (Real.arcsin (Real.sin eps * Real.sin lam))
        * Real.sin (if atan2 (Real.sin lam * Real.cos eps) (Real.cos lam) < 0 then
            atan2 (Real.sin lam * Real.cos eps) (Real.cos lam) + 2 * Real.pi
          else atan2 (Real.sin lam * Real.cos eps) (Real.cos lam))
        * Real.cos eps
      + Real.sin (Real.arcsin (Real.sin eps * Real.sin lam)) * Real.sin eps
      = Real.sin lam
    ∧ Real.cos (Real.arcsin (Real.sin eps * Real.sin lam))
        * Real.cos (if atan2 (Real.sin lam * Real.cos eps) (Real.cos lam) < 0 then
            atan2 (Real.sin lam * Real.cos eps) (Real.cos lam) + 2 * Real.pi
          else atan2 (Real.sin lam * Real.cos eps) (Real.cos lam))
      = Real.cos lam := by
  have h1 : Real.sin eps ^ 2 + Real.cos eps ^ 2 = 1 := Real.sin_sq_add_cos_sq eps
  have h2 : Real.sin lam ^ 2 + Real.cos lam ^ 2 = 1 := Real.sin_sq_add_cos_sq lam
  have hslam : Real.sin lam ^ 2 ≤ 1 := Real.sin_sq_le_one lam
  have hApos : 0 < 1 - (Real.sin eps * Real.sin lam) ^ 2 := by
    nlinarith [mul_le_mul_of_nonneg_left hslam (sq_nonneg (Real.sin eps)),
      pow_pos hce 2]
  have hAne : Real.sqrt (1 - (Real.sin eps * Real.sin lam) ^ 2) ≠ 0 :=
    (Real.sqrt_pos.mpr hApos).ne'
  have hcosarc : Real.cos (Real.arcsin (Real.sin eps * Real.sin lam)) =
      Real.sqrt (1 - (Real.sin eps * Real.sin lam) ^ 2) :=
    Real.cos_arcsin _
  have hb1 : -1 ≤ Real.sin eps * Real.sin lam := by
    nlinarith [Real.neg_one_le_sin eps, Real.sin_le_one eps,
      Real.neg_one_le_sin lam, Real.sin_le_one lam]
  have hb2 : Real.sin eps * Real.sin lam ≤ 1 := by
    nlinarith [Real.neg_one_le_sin eps, Real.sin_le_one eps,
      Real.neg_one_le_sin lam, Real.sin_le_one lam]
  have hsinarc : Real.sin (Real.arcsin (Real.sin eps * Real.sin lam)) =
      Real.sin eps * Real.sin lam := Real.sin_arcsin hb1 hb2
  have hnsq : Complex.normSq ⟨Real.cos lam, Real.sin lam * Real.cos eps⟩ =
      1 - (Real.sin eps * Real.sin lam) ^ 2 := by
    rw [Complex.normSq_mk]
    linear_combination h2 + Real.sin lam ^ 2 * h1
  have hzne : (⟨Real.cos lam, Real.sin lam * Real.cos eps⟩ : ℂ) ≠ 0 :=
    Complex.normSq_pos.mp (by rw [hnsq]; exact hApos)
  have habs : Complex.abs ⟨Real.cos lam, Real.sin lam * Real.cos eps⟩ =
      Real.sqrt (1 - (Real.sin eps * Real.sin lam) ^ 2) := by
    rw [Complex.abs_apply, hnsq]
  have hA0arg : atan2 (Real.sin lam * Real.cos eps) (Real.cos lam) =
      Complex.arg ⟨Real.cos lam, Real.sin lam * Real.cos eps⟩ := rfl
  have hcosA0 : Real.cos (atan2 (Real.sin lam * Real.cos eps) (Real.cos lam)) =
      Real.cos lam / Real.sqrt (1 - (Real.sin eps * Real.sin lam) ^ 2) := by
    rw [hA0arg, Complex.cos_arg hzne, habs]
  have hsinA0 : Real.sin (atan2 (Real.sin lam * Real.cos eps) (Real.cos lam)) =
      Real.sin lam * Real.cos eps / Real.sqrt (1 - (Real.sin eps * Real.sin lam) ^ 2) := by
    rw [hA0arg, Complex.sin_arg, habs]
  have hcosAI : Real.cos (if atan2 (Real.sin lam * Real.cos eps) (Real.cos lam) < 0 then
      atan2 (Real.sin lam * Real.cos eps) (Real.cos lam) + 2 * Real.pi
    else atan2 (Real.sin lam * Real.cos eps) (Real.cos lam)) =
      Real.cos lam / Real.sqrt (1 - (Real.sin eps * Real.sin lam) ^ 2) := by
    split_ifs with h
    · rw [Real.cos_add_two_pi]
      exact hcosA0
    · exact hcosA0
  have hsinAI : Real.sin (if atan2 (Real.sin lam * Real.cos eps) (Real.cos lam) < 0 then
      atan2 (Real.sin lam * Real.cos eps) (Real.cos lam) + 2 * Real.pi
    else atan2 (Real.sin lam * Real.cos eps) (Real.cos lam)) =
      Real.sin lam * Real.cos eps / Real.sqrt (1 - (Real.sin eps * Real.sin lam) ^ 2) := by
    split_ifs with h
    · rw [Real.sin_add_two_pi]
      exact hsinA0
    · exact hsinA0
  constructor
  · rw [hcosarc, hsinarc, hsinAI]
    field_simp
    linear_combination Real.sin lam * h1
  · rw [hcosarc, hcosAI]
    field_simp

/-- For a longitude in [0, 360), reading the ecliptic direction vector
back through atan2 recovers the longitude in degrees. -/
lemma normalize_atan2_sin_cos {lambdaDeg : ℝ} (h0 : 0 ≤ lambdaDeg) (h1 : lambdaDeg < 360) :
    normalizeDegrees (rad2deg (atan2 (Real.sin (deg2rad lambdaDeg))
      (Real.cos (deg2rad lambdaDeg)))) = lambdaDeg := by
  have hpi := Real.pi_pos
  by_cases hc : lambdaDeg ≤ 180
  · have hlam_le : deg2rad lambdaDeg ≤ Real.pi := by
      unfold deg2rad
      nlinarith [mul_nonneg (sub_nonneg.mpr hc) Real.pi_pos.le]
    have hlam_0 : 0 ≤ deg2rad lambdaDeg := by
      unfold deg2rad
      positivity
    have harg : atan2 (Real.sin (deg2rad lambdaDeg)) (Real.cos (deg2rad lambdaDeg)) =
        deg2rad lambdaDeg := by
      show Complex.arg ⟨Real.cos (deg2rad lambdaDeg), Real.sin (deg2rad lambdaDeg)⟩ = _
      rw [Complex.mk_eq_add_mul_I, Complex.ofReal_cos, Complex.ofReal_sin]
      exact Complex.arg_cos_add_sin_mul_I ⟨by linarith, hlam_le⟩
    rw [harg, rad2deg_deg2rad]
    exact normalizeDegrees_eq_self h0 h1
  · push_neg at hc
    have hgt : Real.pi < deg2rad lambdaDeg := by
      unfold deg2rad
      nlinarith [mul_pos (sub_pos.mpr hc) Real.pi_pos]
    have hlt : deg2rad lambdaDeg - 2 * Real.pi ≤ Real.pi := by
      unfold deg2rad
      nlinarith [mul_nonneg (by linarith : (0:ℝ) ≤ 540 - lambdaDeg) Real.pi_pos.le]
    have hcos : Real.cos (deg2rad lambdaDeg) =
        Real.cos (deg2rad lambdaDeg - 2 * Real.pi) := (Real.cos_sub_two_pi _).symm
    have hsin : Real.sin (deg2rad lambdaDeg) =
        Real.sin (deg2rad lambdaDeg - 2 * Real.pi) := (Real.sin_sub_two_pi _).symm
    have harg : atan2 (Real.sin (deg2rad lambdaDeg)) (Real.cos (deg2rad lambdaDeg)) =
        deg2rad lambdaDeg - 2 * Real.pi := by
      show Complex.arg ⟨Real.cos (deg2rad lambdaDeg), Real.sin (deg2rad lambdaDeg)⟩ = _
      rw [hcos, hsin, Complex.mk_eq_add_mul_I, Complex.ofReal_cos, Complex.ofReal_sin]
      exact Complex.arg_cos_add_sin_mul_I ⟨by linarith, hlt⟩
    have hr : rad2deg (deg2rad lambdaDeg - 2 * Real.pi) = lambdaDeg - 360 := by
      unfold rad2deg deg2rad
      field_simp
      ring
    rw [harg, hr, normalizeDegrees_neg_eq (by linarith) (by linarith)]
    ring

/-- Converting an ecliptic longitude with latitude zero through the
forward projection and back reproduces it exactly over the reals. -/
lemma roundtrip_exact {lambdaDeg : ℝ} (h0 : 0 ≤ lambdaDeg) (h1 : lambdaDeg < 360) :
    equatorialJ2000ToEclipticLongitude
      (eclipticLongitudeToEquatorialJ2000 lambdaDeg obliquityJ2000).1
      (eclipticLongitudeToEquatorialJ2000 lambdaDeg obliquityJ2000).2
      obliquityJ2000 = lambdaDeg := by
  rw [equ2ecl_unfold, ecl2equ_fst, ecl2equ_snd, deg2rad_hours, deg2rad_rad2deg]
  obtain ⟨hye, hxe⟩ :=
    inverse_projection_eq (deg2rad lambdaDeg) (deg2rad obliquityJ2000) obliquity_cos_pos
  rw [hye, hxe]
  exact normalize_atan2_sin_cos h0 h1

/-- Claim C6: for every ecliptic longitude in [0, 360) and the fixed
obliquity constant, converting the ecliptic point (latitude zero) to
equatorial coordinates via the source projection and back reproduces
the longitude within 1e-6 degrees. -/
theorem eclipticEquatorialRoundtrip (lambdaDeg : ℝ)
    (h0 : 0 ≤ lambdaDeg) (h1 : lambdaDeg < 360) :
    |equatorialJ2000ToEclipticLongitude
        (eclipticLongitudeToEquatorialJ2000 lambdaDeg obliquityJ2000).1
        (eclipticLongitudeToEquatorialJ2000 lambdaDeg obliquityJ2000).2
        obliquityJ2000 - lambdaDeg| ≤ 1 / 1000000 := by
  rw [roundtrip_exact h0 h1, sub_self, abs_zero]
  norm_num

/-- Claim C6 witness at longitude 0. -/
theorem eclipticEquatorialRoundtrip_witness :
    |equatorialJ2000ToEclipticLongitude
        (eclipticLongitudeToEquatorialJ2000 0 obliquityJ2000).1
        (eclipticLongitudeToEquatorialJ2000 0 obliquityJ2000).2
        obliquityJ2000 - 0| ≤ 1 / 1000000 :=
  eclipticEquatorialRoundtrip 0 (by norm_num) (by norm_num)

/-! ## Ascendant raw longitude (astro.ts lines 190 to 201) -/

/-- astro.ts lines 191 to 201: the Ascendant longitude before the
hemisphere correction, as a function of the provider's Greenwich
sidereal time in hours and the observer's longitude and latitude -/
noncomputable def rawAscendantLongitude (gastHours longitude latitude : ℝ) : ℝ :=
  let lstHours := gastHours + longitude / 15
  let thetaDeg := normalizeDegrees (lstHours * 15)
  let theta := deg2rad thetaDeg
  let phi := deg2rad latitude
  let eps := deg2rad 23.4392911
  let y := -Real.cos theta
  let x := Real.sin theta * Real.cos eps + Real.tan phi * Real.sin eps
  normalizeDegrees (rad2deg (atan2 y x))

/-- The Ascendant algorithm exactly as the specification words it:
local sidereal time in hours is Greenwich sidereal time plus
longitude/15; theta is that value times 15, normalized to [0, 360) and
converted to radians; the raw longitude is
atan2(-cos theta, sin theta * cos eps + tan phi * sin eps) converted to
degrees and normalized to [0, 360), with phi the latitude in radians
and eps the fixed obliquity 23.4392911 degrees. -/
noncomputable def specRawAscendantLongitude (gastHours longitude latitude : ℝ) : ℝ :=
  normalizeDegrees (rad2deg (atan2
    (-Real.cos (deg2rad (normalizeDegrees ((gastHours + longitude / 15) * 15))))
    (Real.sin (deg2rad (normalizeDegrees ((gastHours + longitude / 15) * 15)))
        * Real.cos (deg2rad 23.4392911)
      + Real.tan (deg2rad latitude) * Real.sin (deg2rad 23.4392911))))

/-! ## Data model (astro.ts snapshot types) and the injected provider -/

/-- The two bodies the module queries from the ephemeris engine -/
inductive Body
  | sun
  | moon
deriving DecidableEq

/-- The tropical part of each snapshot: longitude, sign name, slice index -/
structure TropicalPosition where
  eclipticLongitude : ℝ
  sign : String
  signIndex : ℤ

/-- Sun and Moon at-birth constellation block (name, abbreviation, and
for the Sun the equatorial coordinates used for the lookup) -/
structure ConstellationFull where
  name : String
  abbreviation : String
  ra : ℝ
  dec : ℝ

/-- The Sun's anchor-based constellation block, carrying the synthetic
anchor instant in its `when` field -/
structure ConstellationAnchored (D : Type) where
  name : String
  abbreviation : String
  ra : ℝ
  dec : ℝ
  when : D

/-- Moon constellation block: name and abbreviation only -/
structure ConstellationBrief where
  name : String
  abbreviation : String

/-- Ascendant constellation block -/
structure ConstellationProjected where
  name : String
  abbreviation : String
  raHours : ℝ
  decDeg : ℝ

/-- astro.ts `SunSnapshot`: tropical data, at-birth constellation, and
the anchor-based (star-aligned) constellation -/
structure SunSnapshot (D : Type) where
  tropical : TropicalPosition
  constellation : ConstellationFull
  constellationNYT : ConstellationAnchored D

/-- astro.ts `MoonSnapshot`: tropical data and at-birth constellation only -/
structure MoonSnapshot where
  tropical : TropicalPosition
  constellation : ConstellationBrief

/-- astro.ts `AscendantSnapshot` -/
structure AscendantSnapshot where
  eclipticLongitude : ℝ
  sign : String
  signIndex : ℤ
  constellation : ConstellationProjected

/-- astro.ts `ChartSnapshot` -/
structure ChartSnapshot (D : Type) where
  sun : SunSnapshot D
  moon : MoonSnapshot
  ascendant : AscendantSnapshot

/-- The external collaborators of the module, abstracted over the type
`D` of JavaScript `Date` values: the ephemeris provider (geocentric
vectors folded with the ecliptic-of-date conversion, equatorial J2000
coordinates at the fixed geocentric observer, sidereal time,
constellation lookup) and the calendar operations the anchor instant
needs. `nowFullYear` models `new Date().getFullYear()` read at
computation time. -/
structure Env (D : Type) where
  eclipticElonOfDate : Body → D → ℝ
  equatorJ2000 : Body → D → ℝ × ℝ
  constellationName : ℝ → ℝ → String
  constellationSymbol : ℝ → ℝ → String
  siderealTime : D → ℝ
  getMonth : D → ℤ
  getDate : D → ℤ
  nowFullYear : ℤ
  dateUTC : ℤ → ℤ → ℤ → ℤ → ℤ → ℤ → D

/-- Input validation, mirroring the zod schema
`z.object({ birthDateTime: z.date(), latitude: z.number().min(-90).max(90),
longitude: z.number().min(-180).max(180) })`: `.min`/`.max` bounds are
inclusive, and a failed parse reports the offending fields -/
inductive InputField
  | latitude
  | longitude
deriving DecidableEq

/-- The list of fields rejected by `InputSchema.parse` -/
noncomputable def parseIssues (latitude longitude : ℝ) : List InputField :=
  (if latitude < -90 ∨ 90 < latitude then [InputField.latitude] else []) ++
  (if longitude < -180 ∨ 180 < longitude then [InputField.longitude] else [])

/-- The body of `computeSunSnapshot` after successful validation; the
function reads only the birth instant, never latitude or longitude -/
noncomputable def sunCore {D : Type} (env : Env D) (birthDateTime : D) : SunSnapshot D :=
  let sunElon := normalizeDegrees (env.eclipticElonOfDate Body.sun birthDateTime)
  let equ := env.equatorJ2000 Body.sun birthDateTime
  let nytWhen := env.dateUTC env.nowFullYear (env.getMonth birthDateTime)
    (env.getDate birthDateTime) 12 0 0
  let equNYT := env.equatorJ2000 Body.sun nytWhen
  { tropical :=
      { eclipticLongitude := sunElon
        sign := signLabel sunElon
        signIndex := signIndex sunElon }
    constellation :=
      { name := env.constellationName equ.1 equ.2
        abbreviation := env.constellationSymbol equ.1 equ.2
        ra := equ.1
        dec := equ.2 }
    constellationNYT :=
      { name := env.constellationName equNYT.1 equNYT.2
        abbreviation := env.constellationSymbol equNYT.1 equNYT.2
        ra := equNYT.1
        dec := equNYT.2
        when := nytWhen } }

/-- The body of `computeChartSnapshot` after successful validation.
The source reaches its Sun part through a nested
`computeSunSnapshot` call whose inner `InputSchema.parse` is guaranteed
to succeed under the outer guard, so it is `sunCore` here. -/
noncomputable def computeChartCore {D : Type} (env : Env D) (birthDateTime : D)
    (latitude longitude : ℝ) : ChartSnapshot D :=
  let moonElon := normalizeDegrees (env.eclipticElonOfDate Body.moon birthDateTime)
  let mequ := env.equatorJ2000 Body.moon birthDateTime
  let lambdaAsc := hemisphereCorrect
    (rawAscendantLongitude (env.siderealTime birthDateTime) longitude latitude)
  let ascEq := eclipticLongitudeToEquatorialJ2000 lambdaAsc 23.4392911
  { sun := sunCore env birthDateTime
    moon :=
      { tropical :=
          { eclipticLongitude := moonElon
            sign := signLabel moonElon
            signIndex := signIndex moonElon }
        constellation :=
          { name := env.constellationName mequ.1 mequ.2
            abbreviation := env.constellationSymbol mequ.1 mequ.2 } }
    ascendant :=
      { eclipticLongitude := lambdaAsc
        sign := signLabel lambdaAsc
        signIndex := signIndex lambdaAsc
        constellation :=
          { name := env.constellationName ascEq.1 ascEq.2
            abbreviation := env.constellationSymbol ascEq.1 ascEq.2
            raHours := ascEq.1
            decDeg := ascEq.2 } } }

/-- astro.ts `computeSunSnapshot`: validate, then compute from the
birth instant only -/
noncomputable def computeSunSnapshot {D : Type} (env : Env D) (birthDateTime : D)
    (latitude longitude : ℝ) : Except (List InputField) (SunSnapshot D) :=
  match parseIssues latitude longitude with
  | [] => Except.ok (sunCore env birthDateTime)
  | e => Except.error e

/-- astro.ts `computeChartSnapshot`: validate, then compute the full chart -/
noncomputable def computeChartSnapshot {D : Type} (env : Env D) (birthDateTime : D)
    (latitude longitude : ℝ) : Except (List InputField) (ChartSnapshot D) :=
  match parseIssues latitude longitude with
  | [] => Except.ok (computeChartCore env birthDateTime latitude longitude)
  | e => Except.error e

/-- A concrete environment over a trivial date type, used to witness
the parametric theorems at explicit inputs -/
noncomputable def trivialEnv : Env Unit where
  eclipticElonOfDate := fun _ _ => 0
  equatorJ2000 := fun _ _ => (0, 0)
  constellationName := fun _ _ => "Pisces"
  constellationSymbol := fun _ _ => "Psc"
  siderealTime := fun _ => 0
  getMonth := fun _ => 0
  getDate := fun _ => 1
  nowFullYear := 2026
  dateUTC := fun _ _ _ _ _ _ => ()

/-! ## Claim theorems over the entry points -/

/-- Claim C1: for every valid input (any sidereal time, any longitude,
latitude strictly between the poles), the Ascendant ecliptic longitude
computed by the source before the hemisphere correction equals the
algorithm prescribed by the specification. -/
theorem rawAscendant_matches_spec (gastHours longitude latitude : ℝ)
    (h : |latitude| < 90) :
    rawAscendantLongitude gastHours longitude latitude =
      specRawAscendantLongitude gastHours longitude latitude := rfl

/-- Claim C1 witness at Greenwich sidereal time 0, the equator and the
prime meridian. -/
theorem rawAscendant_matches_spec_witness :
    rawAscendantLongitude 0 0 0 = specRawAscendantLongitude 0 0 0 :=
  rawAscendant_matches_spec 0 0 0 (by norm_num)

/-- Claim C4 counterexample: latitude exactly 90 degrees is accepted by
the zod schema (whose `.min(-90).max(90)` bounds are inclusive), so both
entry points succeed instead of signalling the validation failure the
claim requires. -/
theorem latitude_ninety_not_rejected :
    parseIssues 90 0 = [] ∧
    computeChartSnapshot trivialEnv () 90 0 =
      Except.ok (computeChartCore trivialEnv () 90 0) ∧
    computeSunSnapshot trivialEnv () 90 0 = Except.ok (sunCore trivialEnv ()) := by
  have hp : parseIssues (90 : ℝ) 0 = [] := by
    unfold parseIssues
    rw [if_neg (by norm_num), if_neg (by norm_num)]
    rfl
  refine ⟨hp, ?_, ?_⟩
  · unfold computeChartSnapshot
    rw [hp]
  · unfold computeSunSnapshot
    rw [hp]

/-- Claim C4 (amended): only latitudes strictly outside [-90, 90] are
rejected; for those, both entry points signal a validation failure that
identifies the latitude field before any provider result is used, and no
snapshot (hence no Ascendant) is produced. Latitude exactly 90 or -90
passes validation. -/
theorem validation_rejects_beyond_pole {D : Type} (env : Env D) (birthDateTime : D)
    (latitude longitude : ℝ) (h : 90 < |latitude|) :
    computeChartSnapshot env birthDateTime latitude longitude =
      Except.error (parseIssues latitude longitude) ∧
    computeSunSnapshot env birthDateTime latitude longitude =
      Except.error (parseIssues latitude longitude) ∧
    InputField.latitude ∈ parseIssues latitude longitude := by
  have hcond : latitude < -90 ∨ 90 < latitude := by
    rcases lt_or_le latitude 0 with hneg | hpos
    · left
      rw [abs_of_neg hneg] at h
      linarith
    · right
      rwa [abs_of_nonneg hpos] at h
  have hp : parseIssues latitude longitude = InputField.latitude ::
      (if longitude < -180 ∨ 180 < longitude then [InputField.longitude] else []) := by
    unfold parseIssues
    rw [if_pos hcond]
    rfl
  refine ⟨?_, ?_, ?_⟩
  · unfold computeChartSnapshot
    rw [hp]
  · unfold computeSunSnapshot
    rw [hp]
  · rw [hp]
    exact List.mem_cons_self _ _

/-- Claim C4 (amended) witness at latitude 91. -/
theorem validation_rejects_beyond_pole_witness :
    computeChartSnapshot trivialEnv () 91 0 = Except.error (parseIssues 91 0) ∧
    computeSunSnapshot trivialEnv () 91 0 = Except.error (parseIssues 91 0) ∧
    InputField.latitude ∈ parseIssues 91 0 :=
  validation_rejects_beyond_pole trivialEnv () 91 0 (by
    rw [abs_of_nonneg (by norm_num : (0:ℝ) ≤ 91)]
    norm_num)

/-- Claim C5: the Sun's star-aligned anchor instant is built exactly
from the birth instant's calendar month and day, the current calendar
year read at computation time, and the fixed hour 12:00 UTC; its
anchor constellation is the provider lookup at that instant; and the
Moon and Ascendant snapshots carry only an at-birth constellation
(the Moon's resolved at the birth instant, the Ascendant's resolved by
projecting its own ecliptic longitude, with no anchor instant involved). -/
theorem anchor_instant_only_for_sun {D : Type} (env : Env D) (birthDateTime : D)
    (latitude longitude : ℝ) :
    (sunCore env birthDateTime).constellationNYT.when =
      env.dateUTC env.nowFullYear (env.getMonth birthDateTime)
        (env.getDate birthDateTime) 12 0 0 ∧
    (sunCore env birthDateTime).constellationNYT.name =
      env.constellationName
        (env.equatorJ2000 Body.sun (env.dateUTC env.nowFullYear
          (env.getMonth birthDateTime) (env.getDate birthDateTime) 12 0 0)).1
        (env.equatorJ2000 Body.sun (env.dateUTC env.nowFullYear
          (env.getMonth birthDateTime) (env.getDate birthDateTime) 12 0 0)).2 ∧
    (computeChartCore env birthDateTime latitude longitude).moon.constellation =
      { name := env.constellationName
          (env.equatorJ2000 Body.moon birthDateTime).1
          (env.equatorJ2000 Body.moon birthDateTime).2
        abbreviation := env.constellationSymbol
          (env.equatorJ2000 Body.moon birthDateTime).1
          (env.equatorJ2000 Body.moon birthDateTime).2 } ∧
    (computeChartCore env birthDateTime latitude longitude).ascendant.constellation.name =
      env.constellationName
        (eclipticLongitudeToEquatorialJ2000
          (computeChartCore env birthDateTime latitude longitude).ascendant.eclipticLongitude
          23.4392911).1
        (eclipticLongitudeToEquatorialJ2000
          (computeChartCore env birthDateTime latitude longitude).ascendant.eclipticLongitude
          23.4392911).2 :=
  ⟨rfl, rfl, rfl, rfl⟩

/-- The raw Ascendant longitude is produced by `normalizeDegrees`, hence
lies in [0, 360). -/
lemma rawAscendantLongitude_mem (gastHours longitude latitude : ℝ) :
    0 ≤ rawAscendantLongitude gastHours longitude latitude ∧
    rawAscendantLongitude gastHours longitude latitude < 360 :=
  normalizeDegrees_mem _

/-- Claim C8: in every computed chart, the Sun, Moon and hemisphere-
corrected Ascendant ecliptic longitudes all lie in [0, 360) at the
moment their slice index and sign name are derived. -/
theorem chart_longitudes_in_range {D : Type} (env : Env D) (birthDateTime : D)
    (latitude longitude : ℝ) :
    (0 ≤ (computeChartCore env birthDateTime latitude longitude).sun.tropical.eclipticLongitude ∧
      (computeChartCore env birthDateTime latitude longitude).sun.tropical.eclipticLongitude < 360) ∧
    (0 ≤ (computeChartCore env birthDateTime latitude longitude).moon.tropical.eclipticLongitude ∧
      (computeChartCore env birthDateTime latitude longitude).moon.tropical.eclipticLongitude < 360) ∧
    (0 ≤ (computeChartCore env birthDateTime latitude longitude).ascendant.eclipticLongitude ∧
      (computeChartCore env birthDateTime latitude longitude).ascendant.eclipticLongitude < 360) := by
  obtain ⟨hr0, hr1⟩ :=
    rawAscendantLongitude_mem (env.siderealTime birthDateTime) longitude latitude
  exact ⟨normalizeDegrees_mem _, normalizeDegrees_mem _, hemisphereCorrect_mem hr0 hr1⟩

/-- Claim C9: two calls of the chart entry point with identical birth
instant, latitude and longitude, under the same environment (fixed
ephemeris provider and current-year context), return identical chart
snapshots. -/
theorem chart_deterministic {D : Type} (env : Env D) (b1 b2 : D)
    (lat1 lon1 lat2 lon2 : ℝ)
    (hb : b1 = b2) (hlat : lat1 = lat2) (hlon : lon1 = lon2) :
    computeChartSnapshot env b1 lat1 lon1 = computeChartSnapshot env b2 lat2 lon2 := by
  subst hb
  subst hlat
  subst hlon
  rfl

/-- Claim C9 witness: two identical calls over the trivial environment. -/
theorem chart_deterministic_witness :
    computeChartSnapshot trivialEnv () 0 0 = computeChartSnapshot trivialEnv () 0 0 :=
  chart_deterministic trivialEnv () () 0 0 0 0 rfl rfl rfl

/-- Claim C10: for a fixed birth instant and any two pairs of in-range
coordinates, the Sun entry point returns identical results, and the moon
and sun fields of the chart entry point are identical: latitude and
longitude influence only validation and the ascendant field. -/
theorem sun_moon_independent_of_location {D : Type} (env : Env D) (birthDateTime : D)
    (lat1 lon1 lat2 lon2 : ℝ)
    (h1a : -90 ≤ lat1) (h1b : lat1 ≤ 90) (h1c : -180 ≤ lon1) (h1d : lon1 ≤ 180)
    (h2a : -90 ≤ lat2) (h2b : lat2 ≤ 90) (h2c : -180 ≤ lon2) (h2d : lon2 ≤ 180) :
    computeSunSnapshot env birthDateTime lat1 lon1 =
      computeSunSnapshot env birthDateTime lat2 lon2 ∧
    Except.map (fun c => c.moon) (computeChartSnapshot env birthDateTime lat1 lon1) =
      Except.map (fun c => c.moon) (computeChartSnapshot env birthDateTime lat2 lon2) ∧
    Except.map (fun c => c.sun) (computeChartSnapshot env birthDateTime lat1 lon1) =
      Except.map (fun c => c.sun) (computeChartSnapshot env birthDateTime lat2 lon2) := by
  have hp1 : parseIssues lat1 lon1 = [] := by
    unfold parseIssues
    rw [if_neg (by push_neg; exact ⟨h1a, h1b⟩), if_neg (by push_neg; exact ⟨h1c, h1d⟩)]
    rfl
  have hp2 : parseIssues lat2 lon2 = [] := by
    unfold parseIssues
    rw [if_neg (by push_neg; exact ⟨h2a, h2b⟩), if_neg (by push_neg; exact ⟨h2c, h2d⟩)]
    rfl
  have hc1 : computeChartSnapshot env birthDateTime lat1 lon1 =
      Except.ok (computeChartCore env birthDateTime lat1 lon1) := by
    unfold computeChartSnapshot
    rw [hp1]
  have hc2 : computeChartSnapshot env birthDateTime lat2 lon2 =
      Except.ok (computeChartCore env birthDateTime lat2 lon2) := by
    unfold computeChartSnapshot
    rw [hp2]
  have hmoon : (computeChartCore env birthDateTime lat1 lon1).moon =
      (computeChartCore env birthDateTime lat2 lon2).moon := rfl
  have hsun : (computeChartCore env birthDateTime lat1 lon1).sun =
      (computeChartCore env birthDateTime lat2 lon2).sun := rfl
  refine ⟨?_, ?_, ?_⟩
  · unfold computeSunSnapshot
    rw [hp1, hp2]
  · rw [hc1, hc2]
    show Except.ok (computeChartCore env birthDateTime lat1 lon1).moon =
      Except.ok (computeChartCore env birthDateTime lat2 lon2).moon
    rw [hmoon]
  · rw [hc1, hc2]
    show Except.ok (computeChartCore env birthDateTime lat1 lon1).sun =
      Except.ok (computeChartCore env birthDateTime lat2 lon2).sun
    rw [hsun]

/-- Claim C10 witness at two distinct in-range locations. -/
theorem sun_moon_independent_of_location_witness :
    computeSunSnapshot trivialEnv () 10 20 =
      computeSunSnapshot trivialEnv () (-30) 40 ∧
    Except.map (fun c => c.moon) (computeChartSnapshot trivialEnv () 10 20) =
      Except.map (fun c => c.moon) (computeChartSnapshot trivialEnv () (-30) 40) ∧
    Except.map (fun c => c.sun) (computeChartSnapshot trivialEnv () 10 20) =
      Except.map (fun c => c.sun) (computeChartSnapshot trivialEnv () (-30) 40) :=
  sun_moon_independent_of_location trivialEnv () 10 20 (-30) 40
    (by norm_num) (by norm_num) (by norm_num) (by norm_num)
    (by norm_num) (by norm_num) (by norm_num) (by norm_num)

end Horoscope
